import Mathlib

/-!
Verification development for the SunPatch orientation controller and
ambient lighting state (src/src/App.jsx).  The definitions below are a
shallow embedding over the reals of the arithmetic performed by the
source: the sun-direction closure (App.jsx lines 190-201), the
mechanical limits (lines 176-181), the tracking branch of the frame
callback (lines 222-234), the demo ("spin") branch (lines 206-219) and
the lighting update closure (lines 254-279).
-/

namespace SunPatch

noncomputable section

open Real

/-- Degrees-to-radians conversion, THREE.MathUtils.degToRad: `degrees * (π / 180)`. -/
def degToRad (degrees : ℝ) : ℝ := degrees * (π / 180)

/-- THREE.MathUtils.clamp: `Math.max(lo, Math.min(hi, value))`. -/
def clamp (value lo hi : ℝ) : ℝ := max lo (min hi value)

/-- Real model of JS `Math.atan2(y, x)`: the principal argument of the
complex number `x + y·i`, valued in `(-π, π]` (and `0` at the origin,
as `Math.atan2(0, 0) = 0`). -/
def atan2 (y x : ℝ) : ℝ := Complex.arg ⟨x, y⟩

/-- Real model of JS `Math.hypot(x, y)`. -/
def hypot (x y : ℝ) : ℝ := Real.sqrt (x ^ 2 + y ^ 2)

/-- Three-component vector, as THREE.Vector3. -/
structure Vec3 where
  x : ℝ
  y : ℝ
  z : ℝ

/-- Euclidean length of a `Vec3` (THREE.Vector3.length). -/
def Vec3.length (v : Vec3) : ℝ := Real.sqrt (v.x ^ 2 + v.y ^ 2 + v.z ^ 2)

/-- THREE.Vector3.normalize: `divideScalar(length || 1)` — divide each
component by the length, or by 1 (i.e. leave the vector unchanged) when
the length is 0. -/
def Vec3.normalize (v : Vec3) : Vec3 :=
  if v.length = 0 then v else ⟨v.x / v.length, v.y / v.length, v.z / v.length⟩

/-- Sun-direction update closure of App.jsx lines 190-201: from the sun
angles it builds `(sin a · cos h, sin h, cos a · cos h)` and stores its
normalization as the new cached direction.  The update has no other
effect: the new stored direction is a pure function of the two angles. -/
def evaluateSunDirection (azimuth altitude : ℝ) : Vec3 :=
  (Vec3.mk (Real.sin azimuth * Real.cos altitude) (Real.sin altitude)
    (Real.cos azimuth * Real.cos altitude)).normalize

/-- Actuator travel envelope (App.jsx lines 176-181). -/
structure MechanicalLimits where
  yawMin : ℝ
  yawMax : ℝ
  pitchMin : ℝ
  pitchMax : ℝ

/-- The `LIMITS` constant of App.jsx: yaw in `[-170°, 170°]`, pitch in
`[-5°, 65°]`, in radians. -/
def LIMITS : MechanicalLimits :=
  ⟨degToRad (-170), degToRad 170, degToRad (-5), degToRad 65⟩

/-- Geometric yaw target, App.jsx line 223: `atan2(dir.x, dir.z)`. -/
def yawTarget (dir : Vec3) : ℝ := atan2 dir.x dir.z

/-- Geometric pitch target, App.jsx line 224:
`atan2(dir.y, hypot(dir.x, dir.z))`. -/
def pitchTarget (dir : Vec3) : ℝ := atan2 dir.y (hypot dir.x dir.z)

/-- Night classification, App.jsx line 225: `dir.y < 0`. -/
def isNight (dir : Vec3) : Prop := dir.y < 0

/-- Clamped yaw of the tracking branch, App.jsx line 227. -/
def trackingYaw (dir : Vec3) : ℝ :=
  clamp (yawTarget dir) LIMITS.yawMin LIMITS.yawMax

/-- Clamped pitch of the tracking branch, App.jsx lines 228-230: the 5°
stow angle when `dir.y < 0`, the geometric pitch target otherwise, both
clamped into the pitch limits. -/
def trackingPitch (dir : Vec3) : ℝ :=
  if dir.y < 0 then clamp (degToRad 5) LIMITS.pitchMin LIMITS.pitchMax
  else clamp (pitchTarget dir) LIMITS.pitchMin LIMITS.pitchMax

/-- Demo ("spin") pitch, App.jsx lines 207-213: with `T = 8`,
`w = 2π/T`, `s = (sin(t·w) + 1)/2`, the pitch is
`degToRad(8 + (55 - 8)·s)`. -/
def demoPitch (t : ℝ) : ℝ :=
  degToRad (8 + (55 - 8) * ((Real.sin (t * (π * 2 / 8)) + 1) / 2))

/-- Demo ("spin") yaw, App.jsx line 214: `degToRad(sin(t·w·0.35)·30)`. -/
def demoYaw (t : ℝ) : ℝ :=
  degToRad (Real.sin (t * (π * 2 / 8) * 0.35) * 30)

/-- Demo trajectory as a pair, the `(yaw, pitch)` computed by the spin
branch at elapsed time `t`. -/
def computeDemoTrajectory (t : ℝ) : ℝ × ℝ := (demoYaw t, demoPitch t)

/-- Quaternion with the component layout of THREE.Quaternion. -/
structure Quat where
  x : ℝ
  y : ℝ
  z : ℝ
  w : ℝ

/-- Componentwise dot product of quaternions (THREE.Quaternion.dot). -/
def qdot (a b : Quat) : ℝ := a.x * b.x + a.y * b.y + a.z * b.z + a.w * b.w

/-- Componentwise negation of a quaternion. -/
def qneg (a : Quat) : Quat := ⟨-a.x, -a.y, -a.z, -a.w⟩

/-- Componentwise sum of quaternions. -/
def qadd (a b : Quat) : Quat := ⟨a.x + b.x, a.y + b.y, a.z + b.z, a.w + b.w⟩

/-- Scalar multiple of a quaternion. -/
def qsmul (s : ℝ) (a : Quat) : Quat := ⟨s * a.x, s * a.y, s * a.z, s * a.w⟩

/-- Hamilton product, as THREE.Quaternion.multiplyQuaternions(a, b). -/
def qmul (a b : Quat) : Quat :=
  ⟨a.x * b.w + a.w * b.x + a.y * b.z - a.z * b.y,
   a.y * b.w + a.w * b.y + a.z * b.x - a.x * b.z,
   a.z * b.w + a.w * b.z + a.x * b.y - a.y * b.x,
   a.w * b.w - a.x * b.x - a.y * b.y - a.z * b.z⟩

/-- Angular distance between two quaternions,
THREE.Quaternion.angleTo: `2·acos(|clamp(dot, -1, 1)|)`. -/
def angleTo (a b : Quat) : ℝ := 2 * Real.arccos |clamp (qdot a b) (-1) 1|

/-- Sign-adjusted target used by spherical interpolation: the target or
its negation, whichever has nonnegative dot product with the start (the
two represent the same rotation; the choice selects the shorter arc). -/
def flipTo (p q : Quat) : Quat := if qdot p q < 0 then qneg q else q

/-- Spherical-interpolation coefficient `sin(t·θ)/sin(θ)` where `θ` is
the half-angle `acos(dot)` between the start and the sign-adjusted
target. -/
def slerpRatio (p q : Quat) (t : ℝ) : ℝ :=
  Real.sin (t * Real.arccos (qdot p (flipTo p q))) /
    Real.sin (Real.arccos (qdot p (flipTo p q)))

/-- Modelled from the spec: the spherical interpolation step used by
`advanceTowardTarget` (§4.1).  The implementation the source calls,
THREE.Quaternion.slerp, is in the three.js dependency, not under src/;
this is its exact-arithmetic form
`sin((1-t)·θ)/sin(θ) · p + sin(t·θ)/sin(θ) · q̃` on the shorter arc,
without the floating-point epsilon guard. -/
def slerp (p q : Quat) (t : ℝ) : Quat :=
  qadd (qsmul (slerpRatio p q (1 - t)) p) (qsmul (slerpRatio p q t) (flipTo p q))

/-- Modelled from the spec: `advanceTowardTarget(current, target,
maxStep)` of §4.1, the slew-limited per-frame advance invoked at
App.jsx line 234 as `quaternion.rotateTowards(qFinal, 0.02)`.  The
implementation, THREE.Quaternion.rotateTowards, is in the three.js
dependency, not under src/: it returns `current` unchanged when the
angular distance is zero, the target itself once the distance is within
`maxStep`, and otherwise interpolates a fraction `maxStep / distance`
of the way along the shorter arc. -/
def advanceTowardTarget (current target : Quat) (maxStep : ℝ) : Quat :=
  if angleTo current target = 0 then current
  else if angleTo current target ≤ maxStep then target
  else slerp current target (maxStep / angleTo current target)

/-- THREE.Quaternion.setFromEuler for rotation order "XYZ" (the order
used at App.jsx lines 216 and 232), at euler angles `(ex, ey, ez)`. -/
def quatFromEulerXYZ (ex ey ez : ℝ) : Quat :=
  ⟨Real.sin (ex / 2) * Real.cos (ey / 2) * Real.cos (ez / 2) +
     Real.cos (ex / 2) * Real.sin (ey / 2) * Real.sin (ez / 2),
   Real.cos (ex / 2) * Real.sin (ey / 2) * Real.cos (ez / 2) -
     Real.sin (ex / 2) * Real.cos (ey / 2) * Real.sin (ez / 2),
   Real.cos (ex / 2) * Real.cos (ey / 2) * Real.sin (ez / 2) +
     Real.sin (ex / 2) * Real.sin (ey / 2) * Real.cos (ez / 2),
   Real.cos (ex / 2) * Real.cos (ey / 2) * Real.cos (ez / 2) -
     Real.sin (ex / 2) * Real.sin (ey / 2) * Real.sin (ez / 2)⟩

/-- One invocation of the frame callback of App.jsx lines 203-235, as a
function of the mode string, the elapsed time, the cached sun
direction, the rest-pose quaternion `baseQuat` and the panel's current
quaternion.  The spin branch copies `base * qTilt` directly; the
tracking branch advances the current quaternion toward
`base * qDelta` with the fixed slew step `0.02`. -/
def frameStep (mode : String) (t : ℝ) (dir : Vec3) (base current : Quat) : Quat :=
  if mode = "spin" then
    qmul base (quatFromEulerXYZ (demoPitch t) (demoYaw t) 0)
  else
    advanceTowardTarget current
      (qmul base (quatFromEulerXYZ (trackingPitch dir) (trackingYaw dir) 0)) 0.02

/-- Ambient lighting state produced by the update closure of App.jsx
lines 254-279. -/
structure LightingState where
  skyPos : Vec3
  bgColor : String
  envPreset : String
  sunLightIntensity : ℝ
  hemiIntensity : ℝ

/-- Daytime classification of App.jsx line 263: `altitude > 0.05`. -/
def isDayAt (altitude : ℝ) : Prop := 0.05 < altitude

/-- Lighting update closure of App.jsx lines 254-279: the sky anchor at
radius 100 along the sun direction, and one of exactly two presets
selected by `altitude > 0.05`. -/
def lightingUpdate (azimuth altitude : ℝ) : LightingState :=
  if 0.05 < altitude then
    ⟨⟨Real.sin azimuth * Real.cos altitude * 100, Real.sin altitude * 100,
       Real.cos azimuth * Real.cos altitude * 100⟩,
     "#b8d0ff", "sunset", 1.8, 0.35⟩
  else
    ⟨⟨Real.sin azimuth * Real.cos altitude * 100, Real.sin altitude * 100,
       Real.cos azimuth * Real.cos altitude * 100⟩,
     "#05070d", "night", 0.5, 0.15⟩

/-! ## Helper lemmas -/

lemma sunDirRaw_length (a h : ℝ) :
    (Vec3.mk (Real.sin a * Real.cos h) (Real.sin h)
      (Real.cos a * Real.cos h)).length = 1 := by
  unfold Vec3.length
  have hsum : (Real.sin a * Real.cos h) ^ 2 + (Real.sin h) ^ 2 +
      (Real.cos a * Real.cos h) ^ 2 = 1 := by
    nlinarith [Real.sin_sq_add_cos_sq a, Real.sin_sq_add_cos_sq h]
  simp [hsum]

lemma evaluateSunDirection_eq (a h : ℝ) :
    evaluateSunDirection a h =
      Vec3.mk (Real.sin a * Real.cos h) (Real.sin h)
        (Real.cos a * Real.cos h) := by
  unfold evaluateSunDirection Vec3.normalize
  rw [sunDirRaw_length]
  norm_num

lemma clamp_left (value lo hi : ℝ) : lo ≤ clamp value lo hi :=
  le_max_left lo (min hi value)

lemma clamp_right (value lo hi : ℝ) (h : lo ≤ hi) : clamp value lo hi ≤ hi :=
  max_le h (min_le_left hi value)

lemma clamp_eq_self (value lo hi : ℝ) (h1 : lo ≤ value) (h2 : value ≤ hi) :
    clamp value lo hi = value := by
  unfold clamp
  rw [min_eq_right h2, max_eq_right h1]

lemma pitch_limits_le : LIMITS.pitchMin ≤ LIMITS.pitchMax := by
  unfold LIMITS degToRad
  have := Real.pi_pos
  norm_num
  nlinarith

lemma yaw_limits_le : LIMITS.yawMin ≤ LIMITS.yawMax := by
  unfold LIMITS degToRad
  have := Real.pi_pos
  norm_num
  nlinarith

lemma stow_in_pitch_limits :
    LIMITS.pitchMin ≤ degToRad 5 ∧ degToRad 5 ≤ LIMITS.pitchMax := by
  unfold LIMITS degToRad
  have := Real.pi_pos
  constructor <;> nlinarith

lemma degToRad_mono {a b : ℝ} (h : a ≤ b) : degToRad a ≤ degToRad b := by
  unfold degToRad
  have := Real.pi_pos
  nlinarith

lemma degToRad_strictMono {a b : ℝ} (h : a < b) : degToRad a < degToRad b := by
  unfold degToRad
  have := Real.pi_pos
  nlinarith

lemma demoPitch_bounds (t : ℝ) :
    degToRad 8 ≤ demoPitch t ∧ demoPitch t ≤ degToRad 55 := by
  unfold demoPitch
  have hs1 := Real.neg_one_le_sin (t * (π * 2 / 8))
  have hs2 := Real.sin_le_one (t * (π * 2 / 8))
  exact ⟨degToRad_mono (by nlinarith), degToRad_mono (by nlinarith)⟩

lemma demoYaw_bounds (t : ℝ) :
    degToRad (-30) ≤ demoYaw t ∧ demoYaw t ≤ degToRad 30 := by
  unfold demoYaw
  have hs1 := Real.neg_one_le_sin (t * (π * 2 / 8) * 0.35)
  have hs2 := Real.sin_le_one (t * (π * 2 / 8) * 0.35)
  exact ⟨degToRad_mono (by nlinarith), degToRad_mono (by nlinarith)⟩

/-! ## Claims -/

/-- C1: for every azimuth `a` and altitude `h`, the stored sun direction
is exactly the vector `(sin a · cos h, sin h, cos a · cos h)` and it is
a unit vector (its length is exactly 1; in the real model the floating
tolerance is not needed).  The update is a pure function of the angles,
so it has no effect other than producing this stored direction. -/
theorem sun_direction_formula_and_unit (a h : ℝ) :
    evaluateSunDirection a h =
      Vec3.mk (Real.sin a * Real.cos h) (Real.sin h)
        (Real.cos a * Real.cos h) ∧
    (evaluateSunDirection a h).length = 1 := by
  refine ⟨evaluateSunDirection_eq a h, ?_⟩
  rw [evaluateSunDirection_eq]
  exact sunDirRaw_length a h

/-- C2: whenever the cached sun direction has negative `y` component the
tracking pitch is the fixed 5° stow angle (the clamp leaves the stow
angle unchanged since 5° lies inside the pitch limits) regardless of the
rest of the direction, while the yaw is still the clamped geometric
`atan2(dir.x, dir.z)`; for nonnegative `y` the pitch is the clamped
geometric `atan2(dir.y, hypot(dir.x, dir.z))`.  Moreover, for altitudes
in `(-π, π)`, the night condition `dir.y < 0` on the stored direction is
equivalent to `altitude < 0`. -/
theorem night_stow_pitch (dir : Vec3) (a h : ℝ)
    (hrange : -π < h ∧ h < π) :
    (isNight dir → trackingPitch dir = degToRad 5 ∧
      trackingYaw dir = clamp (atan2 dir.x dir.z) LIMITS.yawMin LIMITS.yawMax) ∧
    (¬ isNight dir → trackingPitch dir =
      clamp (atan2 dir.y (hypot dir.x dir.z)) LIMITS.pitchMin LIMITS.pitchMax) ∧
    (isNight (evaluateSunDirection a h) ↔ h < 0) := by
  obtain ⟨hlo, hhi⟩ := hrange
  refine ⟨?_, ?_, ?_⟩
  · intro hy
    unfold isNight at hy
    refine ⟨?_, rfl⟩
    unfold trackingPitch
    rw [if_pos hy]
    exact clamp_eq_self _ _ _ stow_in_pitch_limits.1 stow_in_pitch_limits.2
  · intro hy
    unfold isNight at hy
    unfold trackingPitch
    rw [if_neg hy]
    rfl
  · rw [evaluateSunDirection_eq]
    unfold isNight
    show Real.sin h < 0 ↔ h < 0
    constructor
    · intro hs
      by_contra hh
      push_neg at hh
      exact absurd (Real.sin_nonneg_of_nonneg_of_le_pi hh hhi.le) (not_le.mpr hs)
    · intro hh
      have : 0 < Real.sin (-h) := Real.sin_pos_of_pos_of_lt_pi (by linarith) (by linarith)
      rw [Real.sin_neg] at this
      linarith

/-- Witness for C2 at the direction `(0, -1, 1)` (night) and altitude
`-1` (inside `(-π, π)` since `π > 3`). -/
theorem night_stow_pitch_witness :
    trackingPitch ⟨0, -1, 1⟩ = degToRad 5 ∧
    (isNight (evaluateSunDirection 0 (-1)) ↔ (-1 : ℝ) < 0) := by
  have hp := Real.pi_gt_three
  have h := night_stow_pitch ⟨0, -1, 1⟩ 0 (-1) ⟨by linarith, by linarith⟩
  exact ⟨(h.1 (by norm_num [isNight])).1, h.2.2⟩

/-- C3: for every sun-direction input (the near-overhead case with
`hypot(dir.x, dir.z) = 0` included — no hypothesis on `dir` is needed),
the clamped tracking yaw and pitch lie within the mechanical limits,
the yaw clamp being applied unconditionally and the pitch clamp on both
the stow and the geometric branch. -/
theorem tracking_target_within_limits (dir : Vec3) :
    LIMITS.yawMin ≤ trackingYaw dir ∧ trackingYaw dir ≤ LIMITS.yawMax ∧
    LIMITS.pitchMin ≤ trackingPitch dir ∧ trackingPitch dir ≤ LIMITS.pitchMax := by
  refine ⟨clamp_left _ _ _, clamp_right _ _ _ yaw_limits_le, ?_, ?_⟩
  · unfold trackingPitch
    by_cases hy : dir.y < 0
    · rw [if_pos hy]; exact clamp_left _ _ _
    · rw [if_neg hy]; exact clamp_left _ _ _
  · unfold trackingPitch
    by_cases hy : dir.y < 0
    · rw [if_pos hy]; exact clamp_right _ _ _ pitch_limits_le
    · rw [if_neg hy]; exact clamp_right _ _ _ pitch_limits_le

/-- C6 counterexample: the demo trajectory is not 8-second periodic.
At `t = 0` the yaw is `0`, but at `t = 8` the yaw argument is
`8·(2π/8)·0.35 = 0.7π`, whose sine is positive, so the `(yaw, pitch)`
pair at `t = 8` differs from the pair at `t = 0`. -/
theorem demo_trajectory_not_8_periodic :
    computeDemoTrajectory (0 + 8) ≠ computeDemoTrajectory 0 := by
  unfold computeDemoTrajectory
  intro heq
  have hyaw : demoYaw (0 + 8) = demoYaw 0 := congrArg Prod.fst heq
  unfold demoYaw at hyaw
  rw [show ((0 : ℝ) + 8) * (π * 2 / 8) * 0.35 = 0.7 * π by ring] at hyaw
  rw [show ((0 : ℝ)) * (π * 2 / 8) * 0.35 = 0 by ring] at hyaw
  have hpos : 0 < Real.sin (0.7 * π) := by
    have := Real.pi_pos
    exact Real.sin_pos_of_pos_of_lt_pi (by nlinarith) (by nlinarith)
  have := Real.pi_pos
  rw [Real.sin_zero] at hyaw
  unfold degToRad at hyaw
  nlinarith

/-- C6 amended: the pitch component of the demo trajectory is periodic
with period 8 s, the yaw component with period 160/7 s (its frequency
is 0.35 times the pitch frequency), and the joint `(yaw, pitch)`
trajectory is periodic with period 160 s — their least common period —
rather than 8 s. -/
theorem demo_trajectory_periods (t : ℝ) :
    demoPitch (t + 8) = demoPitch t ∧
    demoYaw (t + 160 / 7) = demoYaw t ∧
    computeDemoTrajectory (t + 160) = computeDemoTrajectory t := by
  refine ⟨?_, ?_, ?_⟩
  · unfold demoPitch
    rw [show (t + 8) * (π * 2 / 8) = t * (π * 2 / 8) + 2 * π by ring,
      Real.sin_add_two_pi]
  · unfold demoYaw
    rw [show (t + 160 / 7) * (π * 2 / 8) * 0.35 =
        t * (π * 2 / 8) * 0.35 + 2 * π by ring, Real.sin_add_two_pi]
  · unfold computeDemoTrajectory demoYaw demoPitch
    rw [show (t + 160) * (π * 2 / 8) * 0.35 =
        t * (π * 2 / 8) * 0.35 + (7 : ℤ) * (2 * π) by push_cast; ring,
      Real.sin_add_int_mul_two_pi,
      show (t + 160) * (π * 2 / 8) =
        t * (π * 2 / 8) + (20 : ℤ) * (2 * π) by push_cast; ring,
      Real.sin_add_int_mul_two_pi]

/-- C7: for every elapsed time `t` in demo mode the pitch equals
`8° + (55° − 8°)·(sin(ωt) + 1)/2` with `ω = 2π/8` and stays within
`[8°, 55°]`, the yaw equals `30°·sin(0.35·ωt)` and stays within
`±30°`, and the spin branch of the frame callback applies
`base * qTilt(t)` directly as the orientation of that frame — the
result is independent of the current orientation and does not pass
through the slew-limited advance step. -/
theorem demo_formulas_and_direct_application
    (t : ℝ) (dir : Vec3) (base current : Quat) :
    demoPitch t =
      degToRad 8 + (degToRad 55 - degToRad 8) *
        ((Real.sin (t * (π * 2 / 8)) + 1) / 2) ∧
    demoYaw t = degToRad 30 * Real.sin (t * (π * 2 / 8) * 0.35) ∧
    degToRad 8 ≤ demoPitch t ∧ demoPitch t ≤ degToRad 55 ∧
    degToRad (-30) ≤ demoYaw t ∧ demoYaw t ≤ degToRad 30 ∧
    frameStep "spin" t dir base current =
      qmul base (quatFromEulerXYZ (demoPitch t) (demoYaw t) 0) := by
  refine ⟨?_, ?_, (demoPitch_bounds t).1, (demoPitch_bounds t).2,
    (demoYaw_bounds t).1, (demoYaw_bounds t).2, ?_⟩
  · unfold demoPitch degToRad
    ring
  · unfold demoYaw degToRad
    ring
  · unfold frameStep
    rw [if_pos rfl]

/-- C10: for every elapsed time `t`, the demo-mode yaw and pitch lie
within the mechanical limits even though the spin branch applies no
clamping: the pitch range `[8°, 55°]` is strictly inside the pitch
limits `[-5°, 65°]` and the yaw range `[-30°, 30°]` strictly inside the
yaw limits `[-170°, 170°]`. -/
theorem demo_within_mechanical_limits (t : ℝ) :
    LIMITS.pitchMin ≤ demoPitch t ∧ demoPitch t ≤ LIMITS.pitchMax ∧
    LIMITS.yawMin ≤ demoYaw t ∧ demoYaw t ≤ LIMITS.yawMax ∧
    LIMITS.pitchMin < degToRad 8 ∧ degToRad 55 < LIMITS.pitchMax ∧
    LIMITS.yawMin < degToRad (-30) ∧ degToRad 30 < LIMITS.yawMax := by
  have hpm : LIMITS.pitchMin < degToRad 8 := degToRad_strictMono (by norm_num)
  have hpM : degToRad 55 < LIMITS.pitchMax := degToRad_strictMono (by norm_num)
  have hym : LIMITS.yawMin < degToRad (-30) := degToRad_strictMono (by norm_num)
  have hyM : degToRad 30 < LIMITS.yawMax := degToRad_strictMono (by norm_num)
  exact ⟨le_trans hpm.le (demoPitch_bounds t).1,
    le_trans (demoPitch_bounds t).2 hpM.le,
    le_trans hym.le (demoYaw_bounds t).1,
    le_trans (demoYaw_bounds t).2 hyM.le, hpm, hpM, hym, hyM⟩

/-- C8 counterexample: the claim requires a night-to-day flip between
any `h1 < 0.05 ≤ h2`, but at `h2 = 0.05` (with, say, `h1 = 0`) the code
still classifies night — `0.05 > 0.05` is false — so no flip occurs:
the lighting at altitude `0.05` is the full night preset. -/
theorem lighting_boundary_still_night :
    ¬ isDayAt 0.05 ∧
    (lightingUpdate 0 0.05).bgColor = "#05070d" ∧
    (lightingUpdate 0 0.05).envPreset = "night" ∧
    (lightingUpdate 0 0.05).sunLightIntensity = 0.5 ∧
    (lightingUpdate 0 0.05).hemiIntensity = 0.15 := by
  have hnot : ¬ ((0.05 : ℝ) < 0.05) := by norm_num
  unfold lightingUpdate
  rw [if_neg hnot]
  exact ⟨hnot, rfl, rfl, rfl, rfl⟩

/-- C8 amended: the lighting evaluation classifies daytime exactly when
`altitude > 0.05` radians, selects exactly one of the two fixed presets
(day: background `#b8d0ff`, sun intensity 1.8, ambient 0.35; night:
background `#05070d`, sun intensity 0.5, ambient 0.15) with a hard
transition and no interpolation, and the classification is monotone in
the altitude and flips from night to day exactly once between any
`h1 ≤ 0.05 < h2` (strict inequality on the day side: altitude `0.05`
itself still classifies as night). -/
theorem lighting_two_presets_and_threshold (a h1 h2 : ℝ)
    (hle : h1 ≤ 0.05) (hgt : 0.05 < h2) :
    (∀ h, isDayAt h ↔ 0.05 < h) ∧
    (∀ h, (isDayAt h ∧ (lightingUpdate a h).bgColor = "#b8d0ff" ∧
        (lightingUpdate a h).envPreset = "sunset" ∧
        (lightingUpdate a h).sunLightIntensity = 1.8 ∧
        (lightingUpdate a h).hemiIntensity = 0.35) ∨
      (¬ isDayAt h ∧ (lightingUpdate a h).bgColor = "#05070d" ∧
        (lightingUpdate a h).envPreset = "night" ∧
        (lightingUpdate a h).sunLightIntensity = 0.5 ∧
        (lightingUpdate a h).hemiIntensity = 0.15)) ∧
    (∀ g1 g2, g1 ≤ g2 → isDayAt g1 → isDayAt g2) ∧
    (¬ isDayAt h1 ∧ isDayAt h2) := by
  refine ⟨fun h => Iff.rfl, ?_, ?_, ?_, ?_⟩
  · intro h
    unfold lightingUpdate isDayAt
    by_cases hd : (0.05 : ℝ) < h
    · left
      rw [if_pos hd]
      exact ⟨hd, rfl, rfl, rfl, rfl⟩
    · right
      rw [if_neg hd]
      exact ⟨hd, rfl, rfl, rfl, rfl⟩
  · intro g1 g2 hg hd
    exact lt_of_lt_of_le hd hg
  · exact not_lt.mpr hle
  · exact hgt

/-- Witness for C8 (amended) at `a = 0`, `h1 = 0`, `h2 = 1`: altitude 0
classifies as night and altitude 1 as day. -/
theorem lighting_two_presets_and_threshold_witness :
    ¬ isDayAt 0 ∧ isDayAt 1 :=
  ⟨(lighting_two_presets_and_threshold 0 0 1 (by norm_num) (by norm_num)).2.2.2.1,
   (lighting_two_presets_and_threshold 0 0 1 (by norm_num) (by norm_num)).2.2.2.2⟩

lemma noon_dir :
    evaluateSunDirection 0 1.1 = ⟨0, Real.sin 1.1, Real.cos 1.1⟩ := by
  rw [evaluateSunDirection_eq]
  simp

lemma cos_11_pos : 0 < Real.cos 1.1 := by
  have := Real.pi_gt_three
  exact Real.cos_pos_of_mem_Ioo ⟨by norm_num; nlinarith, by nlinarith⟩

lemma atan2_noon_yaw : atan2 0 (Real.cos 1.1) = 0 := by
  unfold atan2
  have : (⟨Real.cos 1.1, 0⟩ : ℂ) = ((Real.cos 1.1 : ℝ) : ℂ) := rfl
  rw [this]
  exact Complex.arg_ofReal_of_nonneg cos_11_pos.le

lemma atan2_noon_pitch : atan2 (Real.sin 1.1) (Real.cos 1.1) = 1.1 := by
  unfold atan2
  have hmk : (⟨Real.cos 1.1, Real.sin 1.1⟩ : ℂ) =
      Complex.cos (1.1 : ℝ) + Complex.sin (1.1 : ℝ) * Complex.I := by
    rw [Complex.mk_eq_add_mul_I, Complex.ofReal_cos, Complex.ofReal_sin]
  rw [hmk]
  have := Real.pi_gt_three
  exact Complex.arg_cos_add_sin_mul_I ⟨by nlinarith, by nlinarith⟩

lemma hypot_noon : hypot 0 (Real.cos 1.1) = Real.cos 1.1 := by
  unfold hypot
  rw [show (0 : ℝ) ^ 2 + Real.cos 1.1 ^ 2 = Real.cos 1.1 ^ 2 by ring,
    Real.sqrt_sq_eq_abs, abs_of_pos cos_11_pos]

lemma noon_pitch_eq : trackingPitch (evaluateSunDirection 0 1.1) = 1.1 := by
  rw [noon_dir]
  unfold trackingPitch
  have hy : ¬ ((Vec3.mk 0 (Real.sin 1.1) (Real.cos 1.1)).y < 0) := by
    have := Real.pi_gt_three
    exact not_lt.mpr (Real.sin_nonneg_of_nonneg_of_le_pi (by norm_num) (by nlinarith))
  rw [if_neg hy]
  unfold pitchTarget
  show clamp (atan2 (Real.sin 1.1) (hypot 0 (Real.cos 1.1))) _ _ = _
  rw [hypot_noon, atan2_noon_pitch]
  refine clamp_eq_self _ _ _ ?_ ?_
  · show degToRad (-5) ≤ 1.1
    unfold degToRad
    have := Real.pi_pos
    nlinarith
  · show (1.1 : ℝ) ≤ degToRad 65
    unfold degToRad
    have := Real.pi_gt_d6
    nlinarith

/-- C9 (amended): on the solar-noon input `azimuth = 0`,
`altitude = 1.1` rad, the tracking computation takes the non-night
path, the clamped yaw equals 0 (inside the yaw limits), and the clamped
pitch equals the altitude itself — `1.1`, which the clamp into
`[-5°, 65°]` leaves unchanged. -/
theorem solar_noon_scenario :
    ¬ isNight (evaluateSunDirection 0 1.1) ∧
    trackingYaw (evaluateSunDirection 0 1.1) = 0 ∧
    trackingPitch (evaluateSunDirection 0 1.1) =
      clamp 1.1 LIMITS.pitchMin LIMITS.pitchMax ∧
    trackingPitch (evaluateSunDirection 0 1.1) = 1.1 := by
  have hpi := Real.pi_gt_three
  refine ⟨?_, ?_, ?_, noon_pitch_eq⟩
  · rw [noon_dir]
    unfold isNight
    exact not_lt.mpr (Real.sin_nonneg_of_nonneg_of_le_pi (by norm_num) (by nlinarith))
  · rw [noon_dir]
    unfold trackingYaw yawTarget
    show clamp (atan2 0 (Real.cos 1.1)) _ _ = 0
    rw [atan2_noon_yaw]
    refine clamp_eq_self _ _ _ ?_ ?_
    · show degToRad (-170) ≤ 0
      unfold degToRad
      nlinarith
    · show (0 : ℝ) ≤ degToRad 170
      unfold degToRad
      nlinarith
  · rw [noon_pitch_eq]
    rw [clamp_eq_self]
    · show degToRad (-5) ≤ 1.1
      unfold degToRad
      nlinarith
    · show (1.1 : ℝ) ≤ degToRad 65
      unfold degToRad
      have := Real.pi_gt_d6
      nlinarith

/-- C9 counterexample: the claim says the clamped pitch target equals
the altitude-complement (`π/2 − 1.1`) clamped into `[-5°, 65°]`; the
code instead produces the altitude itself (1.1).  The complement lies
inside the pitch limits, so its clamp is `π/2 − 1.1 ≈ 0.4708`, while
the computed pitch is `1.1`; they would be equal only if `π = 4.4`. -/
theorem solar_noon_complement_refuted :
    trackingPitch (evaluateSunDirection 0 1.1) ≠
      clamp (π / 2 - 1.1) LIMITS.pitchMin LIMITS.pitchMax := by
  rw [noon_pitch_eq]
  have hclamp : clamp (π / 2 - 1.1) LIMITS.pitchMin LIMITS.pitchMax =
      π / 2 - 1.1 := by
    refine clamp_eq_self _ _ _ ?_ ?_
    · show degToRad (-5) ≤ π / 2 - 1.1
      unfold degToRad
      have := Real.pi_gt_three
      nlinarith
    · show π / 2 - 1.1 ≤ degToRad 65
      unfold degToRad
      have := Real.pi_gt_three
      have := Real.pi_lt_d2
      nlinarith
  rw [hclamp]
  intro heq
  have := Real.pi_lt_d2
  nlinarith

lemma qdot_comm (a b : Quat) : qdot a b = qdot b a := by
  unfold qdot
  ring

lemma qdot_sq_le (p q : Quat) : (qdot p q) ^ 2 ≤ qdot p p * qdot q q := by
  unfold qdot
  nlinarith [sq_nonneg (p.x * q.y - p.y * q.x), sq_nonneg (p.x * q.z - p.z * q.x),
    sq_nonneg (p.x * q.w - p.w * q.x), sq_nonneg (p.y * q.z - p.z * q.y),
    sq_nonneg (p.y * q.w - p.w * q.y), sq_nonneg (p.z * q.w - p.w * q.z)]

lemma abs_qdot_le_one {p q : Quat} (hp : qdot p p = 1) (hq : qdot q q = 1) :
    |qdot p q| ≤ 1 := by
  rw [abs_le_one_iff_mul_self_le_one]
  have := qdot_sq_le p q
  nlinarith

lemma clamp_abs_le {v : ℝ} (h : |v| ≤ 1) : clamp v (-1) 1 = v :=
  clamp_eq_self v (-1) 1 (abs_le.mp h).1 (abs_le.mp h).2

lemma qdot_flip (p q : Quat) : qdot p (flipTo p q) = |qdot p q| := by
  unfold flipTo
  by_cases hlt : qdot p q < 0
  · have hneg : qdot p (qneg q) = -(qdot p q) := by
      unfold qdot qneg
      ring
    rw [if_pos hlt, hneg, abs_of_neg hlt]
  · rw [if_neg hlt, abs_of_nonneg (not_lt.mp hlt)]

lemma flip_unit {q : Quat} (p : Quat) (hq : qdot q q = 1) :
    qdot (flipTo p q) (flipTo p q) = 1 := by
  unfold flipTo
  by_cases hlt : qdot p q < 0
  · have hnn : qdot (qneg q) (qneg q) = qdot q q := by
      unfold qdot qneg
      ring
    rw [if_pos hlt, hnn]
    exact hq
  · rw [if_neg hlt]
    exact hq

lemma abs_qdot_flip_right (r p q : Quat) : |qdot r (flipTo p q)| = |qdot r q| := by
  unfold flipTo
  by_cases hlt : qdot p q < 0
  · have hneg : qdot r (qneg q) = -(qdot r q) := by
      unfold qdot qneg
      ring
    rw [if_pos hlt, hneg, abs_neg]
  · rw [if_neg hlt]

lemma qdot_add_smul (a b : ℝ) (u v w : Quat) :
    qdot (qadd (qsmul a u) (qsmul b v)) w = a * qdot u w + b * qdot v w := by
  unfold qdot qadd qsmul
  ring

lemma angleTo_eq_two_arccos {p q : Quat} (hp : qdot p p = 1) (hq : qdot q q = 1) :
    angleTo p q = 2 * Real.arccos (qdot p (flipTo p q)) := by
  unfold angleTo
  rw [clamp_abs_le (abs_qdot_le_one hp hq), qdot_flip]

lemma angleTo_self {q : Quat} (hq : qdot q q = 1) : angleTo q q = 0 := by
  unfold angleTo
  rw [hq, clamp_eq_self 1 (-1) 1 (by norm_num) (by norm_num), abs_one,
    Real.arccos_one, mul_zero]

lemma angleTo_nonneg (p q : Quat) : 0 ≤ angleTo p q := by
  unfold angleTo
  have := Real.arccos_nonneg |clamp (qdot p q) (-1) 1|
  linarith

lemma slerp_dots {p q : Quat} (hp : qdot p p = 1) (hq : qdot q q = 1)
    (hclt : qdot p (flipTo p q) < 1) (t : ℝ) :
    qdot (slerp p q t) (flipTo p q) =
      Real.cos ((1 - t) * Real.arccos (qdot p (flipTo p q))) ∧
    qdot (slerp p q t) p =
      Real.cos (t * Real.arccos (qdot p (flipTo p q))) := by
  set c := qdot p (flipTo p q) with hcdef
  have hc0 : 0 ≤ c := by
    rw [hcdef, qdot_flip]
    exact abs_nonneg _
  have hc1 : c ≤ 1 := by
    rw [hcdef, qdot_flip]
    exact abs_qdot_le_one hp hq
  set θ := Real.arccos c with hθdef
  have hcosθ : Real.cos θ = c := Real.cos_arccos (by linarith) hc1
  have hθpos : 0 < θ := Real.arccos_pos.mpr hclt
  have hθle : θ ≤ π / 2 := Real.arccos_le_pi_div_two.mpr hc0
  have hsinθ : 0 < Real.sin θ := by
    have := Real.pi_pos
    exact Real.sin_pos_of_pos_of_lt_pi hθpos (by linarith)
  unfold slerp slerpRatio
  rw [qdot_add_smul, qdot_add_smul, ← hcdef, ← hθdef, flip_unit p hq, hp,
    qdot_comm (flipTo p q) p, ← hcdef]
  constructor
  · have hexp : Real.sin (t * θ) =
        Real.sin θ * Real.cos ((1 - t) * θ) - Real.cos θ * Real.sin ((1 - t) * θ) := by
      rw [show t * θ = θ - (1 - t) * θ by ring, Real.sin_sub]
    field_simp
    rw [hexp, hcosθ]
    ring
  · have hexp : Real.sin ((1 - t) * θ) =
        Real.sin θ * Real.cos (t * θ) - Real.cos θ * Real.sin (t * θ) := by
      rw [show (1 - t) * θ = θ - t * θ by ring, Real.sin_sub]
    field_simp
    rw [hexp, hcosθ]
    ring

lemma advance_slerp_angles {p q : Quat} (hp : qdot p p = 1) (hq : qdot q q = 1)
    (s : ℝ) (hs : 0 ≤ s) (h0 : angleTo p q ≠ 0) (hgt : ¬ angleTo p q ≤ s) :
    angleTo (slerp p q (s / angleTo p q)) q = angleTo p q - s ∧
    angleTo p (slerp p q (s / angleTo p q)) = s := by
  have hA : angleTo p q = 2 * Real.arccos (qdot p (flipTo p q)) :=
    angleTo_eq_two_arccos hp hq
  set c := qdot p (flipTo p q) with hcdef
  have hc0 : 0 ≤ c := by
    rw [hcdef, qdot_flip]
    exact abs_nonneg _
  have hc1 : c ≤ 1 := by
    rw [hcdef, qdot_flip]
    exact abs_qdot_le_one hp hq
  have hclt : c < 1 := by
    rcases lt_or_eq_of_le hc1 with h | h
    · exact h
    · exfalso
      apply h0
      rw [hA, h, Real.arccos_one, mul_zero]
  set θ := Real.arccos c with hθdef
  have hθpos : 0 < θ := Real.arccos_pos.mpr hclt
  have hθle : θ ≤ π / 2 := Real.arccos_le_pi_div_two.mpr hc0
  have hd0 : angleTo p q = 2 * θ := hA
  have hslt : s < 2 * θ := by
    rw [← hd0]
    exact not_le.mp hgt
  set t := s / angleTo p q with htdef
  have ht0 : 0 ≤ t := div_nonneg hs (angleTo_nonneg p q)
  have ht1 : t < 1 := by
    rw [htdef, hd0]
    rw [div_lt_one (by linarith)]
    exact hslt
  have hts : t * (2 * θ) = s := by
    rw [htdef, hd0]
    field_simp
  obtain ⟨hdq, hdp⟩ := slerp_dots hp hq (by rw [← hcdef]; exact hclt) t
  rw [← hcdef, ← hθdef] at hdq hdp
  have hpi := Real.pi_pos
  constructor
  · have habs : |qdot (slerp p q t) q| = Real.cos ((1 - t) * θ) := by
      rw [← abs_qdot_flip_right (slerp p q t) p q, hdq]
      refine abs_of_nonneg (Real.cos_nonneg_of_mem_Icc ⟨?_, ?_⟩)
      · nlinarith
      · nlinarith
    have hle1 : |qdot (slerp p q t) q| ≤ 1 := by
      rw [habs]
      exact Real.cos_le_one _
    have hL : angleTo (slerp p q t) q = 2 * ((1 - t) * θ) := by
      unfold angleTo
      rw [clamp_abs_le hle1, habs, Real.arccos_cos (by nlinarith) (by nlinarith)]
    rw [hL, hd0, ← hts]
    ring
  · have habs : |qdot p (slerp p q t)| = Real.cos (t * θ) := by
      rw [qdot_comm, hdp]
      refine abs_of_nonneg (Real.cos_nonneg_of_mem_Icc ⟨?_, ?_⟩)
      · nlinarith
      · nlinarith
    have hle1 : |qdot p (slerp p q t)| ≤ 1 := by
      rw [habs]
      exact Real.cos_le_one _
    have hL : angleTo p (slerp p q t) = 2 * (t * θ) := by
      unfold angleTo
      rw [clamp_abs_le hle1, habs, Real.arccos_cos (by nlinarith) (by nlinarith)]
    rw [hL, ← hts]
    ring

/-- C4: for unit quaternions `current` and `target` and any
`maxStep ≥ 0`, one invocation of the per-frame advance step leaves the
remaining angular distance to the target at exactly
`max 0 (distance − maxStep)` — so it never increases the distance and
never overshoots past the target — moves the orientation by exactly
`min maxStep distance ≤ maxStep` radians, and yields zero remaining
distance whenever the distance was at most `maxStep`. -/
theorem advance_toward_target_step (p q : Quat)
    (hp : qdot p p = 1) (hq : qdot q q = 1) (s : ℝ) (hs : 0 ≤ s) :
    angleTo (advanceTowardTarget p q s) q = max 0 (angleTo p q - s) ∧
    angleTo p (advanceTowardTarget p q s) = min s (angleTo p q) ∧
    angleTo (advanceTowardTarget p q s) q ≤ angleTo p q ∧
    (angleTo p q ≤ s → angleTo (advanceTowardTarget p q s) q = 0) := by
  have hd0 : 0 ≤ angleTo p q := angleTo_nonneg p q
  unfold advanceTowardTarget
  by_cases h0 : angleTo p q = 0
  · rw [if_pos h0]
    refine ⟨?_, ?_, le_refl _, fun _ => h0⟩
    · rw [h0, max_eq_left (by linarith)]
    · rw [angleTo_self hp, h0, min_eq_right hs]
  · rw [if_neg h0]
    by_cases hle : angleTo p q ≤ s
    · rw [if_pos hle]
      refine ⟨?_, ?_, ?_, fun _ => angleTo_self hq⟩
      · rw [angleTo_self hq, max_eq_left (by linarith)]
      · rw [min_eq_right hle]
      · rw [angleTo_self hq]
        exact hd0
    · rw [if_neg hle]
      obtain ⟨hrem, hmov⟩ := advance_slerp_angles hp hq s hs h0 hle
      refine ⟨?_, ?_, ?_, fun hc => absurd hc hle⟩
      · rw [hrem, max_eq_right (by linarith [not_le.mp hle])]
      · rw [hmov, min_eq_left (le_of_lt (not_le.mp hle))]
      · rw [hrem]
        linarith

/-- Witness for C4 at `current = target = (0,0,0,1)` (the identity
quaternion, a unit quaternion) and `maxStep = 0`. -/
theorem advance_toward_target_step_witness :
    angleTo (advanceTowardTarget ⟨0, 0, 0, 1⟩ ⟨0, 0, 0, 1⟩ 0) ⟨0, 0, 0, 1⟩ =
      max 0 (angleTo ⟨0, 0, 0, 1⟩ ⟨0, 0, 0, 1⟩ - 0) :=
  (advance_toward_target_step ⟨0, 0, 0, 1⟩ ⟨0, 0, 0, 1⟩
    (by norm_num [qdot]) (by norm_num [qdot]) 0 le_rfl).1

end

end SunPatch
